import Mathlib

/-!
# Verification of the `nord-proxy` selection & projection pipelines

Shallow embedding of `src/lib.rs` and `src/structure.rs` of the
`nord-proxy` crate.  The crate fetches a list of server records from a
directory service and turns them into proxy descriptors, either SOCKS5
(`Socks5`) or HTTP/HTTPS (`Proxy`).

Modelling choices:
* The network fetch (`get_info`) is outside the repository's logic, so the
  two constructors take the already-fetched record list as an argument.
* Rust panics (`.unwrap()` on `Option`) are modelled by returning `none`
  from the whole call: a panic aborts the entire computation, so a
  function that can panic is embedded as an `Option`-returning function.
* `reqwest::Proxy::all` / `reqwest::Proxy::https` (an external crate) are
  modelled abstractly: a parameter `urlOk : String → Bool` stands for the
  external URL parser's acceptance; on acceptance the builder records the
  interception kind (all traffic vs HTTPS-only), the URL string passed to
  it, and an optional basic-auth credential pair.
* The closed `Country` and `City` serde enums of `lib.rs` are opaque
  reference data (the spec treats them as such); they are modelled by
  their serde rename strings.
-/

set_option autoImplicit false

namespace NordProxy

/-- `lib.rs` `Country`: closed serde enum of two-letter codes, modelled by
the rename string. -/
abbrev Country := String

/-- `lib.rs` `City`: closed serde enum of city names, modelled by the
rename string. -/
abbrev City := String

namespace Structure

/-- `structure.rs` `City`: a city name together with its (unused) hub
score. -/
structure City where
  name : NordProxy.City
  hub_score : Int
deriving DecidableEq

/-- `structure.rs` `Country`: country code plus nested city. -/
structure Country where
  code : NordProxy.Country
  city : City
deriving DecidableEq

/-- `structure.rs` `Locations`. -/
structure Locations where
  country : Country
deriving DecidableEq

/-- `structure.rs` `Services`. -/
structure Services where
  identifier : String
deriving DecidableEq

/-- `structure.rs` `Pivot`. -/
structure Pivot where
  status : String
deriving DecidableEq

/-- `structure.rs` `Metadata`. -/
structure Metadata where
  name : String
  value : String
deriving DecidableEq

/-- `structure.rs` `Technologies`. -/
structure Technologies where
  identifier : String
  pivot : Pivot
  metadata : List Metadata
deriving DecidableEq

/-- `structure.rs` `Root`: one server record. -/
structure Root where
  status : String
  services : List Services
  hostname : String
  load : Nat
  locations : List Locations
  technologies : List Technologies
deriving DecidableEq

end Structure

/-- Which traffic a `reqwest::Proxy` intercepts: `reqwest::Proxy::all`
routes every scheme, `reqwest::Proxy::https` only HTTPS traffic. -/
inductive Intercept where
  | all
  | https
deriving DecidableEq

/-- Abstract model of a built `reqwest::Proxy`: the interception kind, the
URL string handed to the builder and the basic-auth credentials, if any
were attached separately. -/
structure ReqwestProxy where
  intercept : Intercept
  url : String
  auth : Option (String × String)
deriving DecidableEq

/-- `reqwest::Proxy::all(s)`, with the external URL parser abstracted as
`urlOk`; `none` models the parse error. -/
def reqwestAll (urlOk : String → Bool) (s : String) : Option ReqwestProxy :=
  if urlOk s then some { intercept := .all, url := s, auth := none } else none

/-- `reqwest::Proxy::https(s)`, with the external URL parser abstracted as
`urlOk`; `none` models the parse error. -/
def reqwestHttps (urlOk : String → Bool) (s : String) : Option ReqwestProxy :=
  if urlOk s then some { intercept := .https, url := s, auth := none } else none

/-- `reqwest::Proxy::basic_auth`: attach credentials separately from the
URL. -/
def ReqwestProxy.basicAuth (p : ReqwestProxy) (username password : String) :
    ReqwestProxy :=
  { p with auth := some (username, password) }

/-- `lib.rs` `ProxyInfo`. -/
structure ProxyInfo where
  load : Nat
  country : Country
  city : City
  proxy : ReqwestProxy
deriving DecidableEq

/-- Left-to-right collection of an iterator whose body can panic: the
first `none` (panic) aborts the whole traversal.  This is `List.mapM` for
`Option`, written recursively so the proofs below stay elementary. -/
def collectAll {α β : Type} (f : α → Option β) : List α → Option (List β)
  | [] => some []
  | x :: xs =>
    match f x with
    | none => none
    | some y =>
      match collectAll f xs with
      | none => none
      | some ys => some (y :: ys)

/-- The filter predicate of `Socks5::new` (`lib.rs` lines 105-110):
case-sensitive record status, and some technology with online pivot status
and identifier `socks`. -/
def socksFilter (v : Structure.Root) : Bool :=
  v.status == "online" &&
    v.technologies.any fun t => t.pivot.status == "online" && t.identifier == "socks"

/-- `lib.rs` `Socks5`: the stored, already-filtered record list. -/
structure Socks5 where
  data : List Structure.Root
deriving DecidableEq

/-- `Socks5::new` (`lib.rs` lines 99-113), with the fetched records as
input (the network call itself is out of scope).  No panic is possible
here. -/
def Socks5.new (fetched : List Structure.Root) : Socks5 :=
  ⟨fetched.filter socksFilter⟩

/-- The URL string formatted by `<Socks5 as ProxyTrait>::proxies`
(`lib.rs` line 127). -/
def socksUrl (username password hostname : String) : String :=
  "socks5h://" ++ username ++ ":" ++ password ++ "@" ++ hostname ++ ":1080"

/-- The per-record body of `<Socks5 as ProxyTrait>::proxies` (`lib.rs`
lines 120-131): take the first location (panic if absent), build the
`socks5h` proxy (panic if the URL is rejected) and assemble the
`ProxyInfo`. -/
def socksDescriptor (urlOk : String → Bool) (username password : String)
    (v : Structure.Root) : Option ProxyInfo :=
  match v.locations.head? with
  | none => none
  | some c =>
    match reqwestAll urlOk (socksUrl username password v.hostname) with
    | none => none
    | some p =>
      some { load := v.load
             city := c.country.city.name
             country := c.country.code
             proxy := p }

/-- `<Socks5 as ProxyTrait>::proxies` (`lib.rs` lines 117-134). -/
def Socks5.proxies (s : Socks5) (urlOk : String → Bool)
    (username password : String) : Option (List ProxyInfo) :=
  collectAll (socksDescriptor urlOk username password) s.data

/-- Rust `str::to_lowercase`, character-wise (agreeing with the Rust
function on ASCII, which is all the comparisons here involve), written as
a structural map over the string's characters so that it evaluates inside
the kernel. -/
def lowercase (s : String) : String :=
  ⟨s.data.map Char.toLower⟩

/-- The filter predicate of `Proxy::new` (`lib.rs` lines 53-56):
lower-cased record status, and some service with identifier `proxy`. -/
def proxyFilter (v : Structure.Root) : Bool :=
  lowercase v.status == "online" && v.services.any fun s => s.identifier == "proxy"

/-- The intermediate tuple type stored by `Proxy`
(`Vec<(u32, Country, City, Technologies)>`). -/
abbrev ProxyTuple := Nat × Country × City × Structure.Technologies

/-- The per-record expansion of `Proxy::new` (`lib.rs` lines 57-70): one
tuple per technology with identifier `proxy_ssl`, reading the first
location inside the map body (panic if absent, hence only when at least
one such technology exists). -/
def expandRecord (v : Structure.Root) : Option (List ProxyTuple) :=
  collectAll
    (fun t =>
      match v.locations.head? with
      | none => none
      | some c => some (v.load, c.country.code, c.country.city.name, t))
    (v.technologies.filter fun t => t.identifier == "proxy_ssl")

/-- `lib.rs` `Proxy`: the stored intermediate tuples. -/
structure Proxy where
  data : List ProxyTuple
deriving DecidableEq

/-- `Proxy::new` (`lib.rs` lines 47-73), with the fetched records as
input; `none` models the `locations.first().unwrap()` panic. -/
def Proxy.new (fetched : List Structure.Root) : Option Proxy :=
  (collectAll expandRecord (fetched.filter proxyFilter)).map fun l => ⟨l.flatten⟩

/-- The per-tuple body of `<Proxy as ProxyTrait>::proxies` (`lib.rs`
lines 80-94): look up the `proxy_hostname` metadata entry (panic if
absent), build the HTTPS proxy (panic if the URL is rejected) and attach
basic-auth credentials. -/
def httpDescriptor (urlOk : String → Bool) (username password : String)
    (v : ProxyTuple) : Option ProxyInfo :=
  match v.2.2.2.metadata.find? (fun m => m.name == "proxy_hostname") with
  | none => none
  | some m =>
    match reqwestHttps urlOk ("https://" ++ m.value ++ ":89") with
    | none => none
    | some p =>
      some { load := v.1
             country := v.2.1
             city := v.2.2.1
             proxy := p.basicAuth username password }

/-- `<Proxy as ProxyTrait>::proxies` (`lib.rs` lines 77-96). -/
def Proxy.proxies (s : Proxy) (urlOk : String → Bool)
    (username password : String) : Option (List ProxyInfo) :=
  collectAll (httpDescriptor urlOk username password) s.data

/-- Spec-side characterization of the per-record expansion of `Proxy::new`
(spec §4.3): the tuples of a record, in the order of its technology
entries; empty when the record has no usable first location.  Used only to
compare, in the order-preservation theorem, against the source-derived
`expandRecord`. -/
def proxyTuplesSpec (v : Structure.Root) : List ProxyTuple :=
  match v.locations.head? with
  | none => []
  | some c =>
    (v.technologies.filter fun t => t.identifier == "proxy_ssl").map
      fun t => (v.load, c.country.code, c.country.city.name, t)

/-! ## Sample data (the scenarios of spec §8) -/

/-- The URL acceptor that accepts every string; used to instantiate the
abstract external URL parser on concrete runs. -/
def acceptAll : String → Bool := fun _ => true

/-- The URL acceptor that rejects every string; used to exercise the
URL-construction failure path. -/
def rejectAll : String → Bool := fun _ => false

/-- Sample record matching the SOCKS5 filter: spec §8, first scenario. -/
def sampleSocksRecord : Structure.Root :=
  { status := "online"
    services := []
    hostname := "h1"
    load := 3
    locations := [⟨⟨"US", ⟨"Miami", 0⟩⟩⟩]
    technologies := [{ identifier := "socks", pivot := ⟨"online"⟩, metadata := [] }] }

/-- Sample record matching the HTTP/HTTPS filter: spec §8, second
scenario. -/
def sampleHttpRecord : Structure.Root :=
  { status := "Online"
    services := [⟨"proxy"⟩]
    hostname := "h2"
    load := 5
    locations := [⟨⟨"NL", ⟨"Amsterdam", 0⟩⟩⟩]
    technologies := [{ identifier := "proxy_ssl", pivot := ⟨"online"⟩,
                       metadata := [⟨"proxy_hostname", "h2.example"⟩] }] }

/-- The intermediate tuple of `sampleHttpRecord`, with the
`proxy_hostname` metadata key present. -/
def tupleWithHost : ProxyTuple :=
  (5, "NL", "Amsterdam",
    { identifier := "proxy_ssl", pivot := ⟨"online"⟩,
      metadata := [⟨"proxy_hostname", "h2.example"⟩] })

/-- An intermediate tuple whose technology entry lacks the
`proxy_hostname` metadata key. -/
def tupleNoHost : ProxyTuple :=
  (1, "US", "Miami",
    { identifier := "proxy_ssl", pivot := ⟨"online"⟩,
      metadata := [⟨"other", "x"⟩] })

/-- A record surviving the HTTP/HTTPS filter with an empty locations list
and no `proxy_ssl` technology entry. -/
def noLocNoSslRecord : Structure.Root :=
  { status := "online"
    services := [⟨"proxy"⟩]
    hostname := "h3"
    load := 0
    locations := []
    technologies := [] }

/-- A record surviving the HTTP/HTTPS filter with an empty locations list
and one `proxy_ssl` technology entry. -/
def noLocSslRecord : Structure.Root :=
  { status := "online"
    services := [⟨"proxy"⟩]
    hostname := "h4"
    load := 0
    locations := []
    technologies := [{ identifier := "proxy_ssl", pivot := ⟨"online"⟩,
                       metadata := [⟨"proxy_hostname", "h4.example"⟩] }] }

/-- The SOCKS5 descriptor produced from `sampleSocksRecord` with
credentials `alice`/`secret`. -/
def socksInfoAlice : ProxyInfo :=
  { load := 3, country := "US", city := "Miami",
    proxy := ⟨.all, "socks5h://alice:secret@h1:1080", none⟩ }

/-- The SOCKS5 descriptor produced from `sampleSocksRecord` with
credentials `bob`/`hunter2`. -/
def socksInfoBob : ProxyInfo :=
  { load := 3, country := "US", city := "Miami",
    proxy := ⟨.all, "socks5h://bob:hunter2@h1:1080", none⟩ }

/-- The HTTPS descriptor produced from `tupleWithHost` with credentials
`alice`/`secret`. -/
def httpInfoAlice : ProxyInfo :=
  { load := 5, country := "NL", city := "Amsterdam",
    proxy := ⟨.https, "https://h2.example:89", some ("alice", "secret")⟩ }

/-- The HTTPS descriptor produced from `tupleWithHost` with credentials
`bob`/`hunter2`. -/
def httpInfoBob : ProxyInfo :=
  { load := 5, country := "NL", city := "Amsterdam",
    proxy := ⟨.https, "https://h2.example:89", some ("bob", "hunter2")⟩ }

/-! ## Basic lemmas about `collectAll` -/

theorem collectAll_nil {α β : Type} (f : α → Option β) :
    collectAll f [] = some [] := rfl

theorem collectAll_cons {α β : Type} (f : α → Option β) (x : α) (xs : List α) :
    collectAll f (x :: xs) =
      match f x with
      | none => none
      | some y =>
        match collectAll f xs with
        | none => none
        | some ys => some (y :: ys) := rfl

/-- A successful traversal produces one output per input. -/
theorem collectAll_length {α β : Type} (f : α → Option β) :
    ∀ {xs : List α} {ys : List β}, collectAll f xs = some ys →
      ys.length = xs.length := by
  intro xs
  induction xs with
  | nil => intro ys h; rw [collectAll_nil] at h; cases h; rfl
  | cons x xs ih =>
    intro ys h
    rw [collectAll_cons] at h
    cases hf : f x with
    | none => rw [hf] at h; cases h
    | some y =>
      rw [hf] at h
      cases hr : collectAll f xs with
      | none => rw [hr] at h; cases h
      | some zs =>
        rw [hr] at h
        cases h
        simp [List.length_cons, ih hr]

/-- A successful traversal relates inputs and outputs positionally. -/
theorem collectAll_forall₂ {α β : Type} (f : α → Option β) :
    ∀ {xs : List α} {ys : List β}, collectAll f xs = some ys →
      List.Forall₂ (fun x y => f x = some y) xs ys := by
  intro xs
  induction xs with
  | nil => intro ys h; rw [collectAll_nil] at h; cases h; exact List.Forall₂.nil
  | cons x xs ih =>
    intro ys h
    rw [collectAll_cons] at h
    cases hf : f x with
    | none => rw [hf] at h; cases h
    | some y =>
      rw [hf] at h
      cases hr : collectAll f xs with
      | none => rw [hr] at h; cases h
      | some zs =>
        rw [hr] at h
        cases h
        exact List.Forall₂.cons hf (ih hr)

/-- One failing element aborts the whole traversal. -/
theorem collectAll_eq_none {α β : Type} (f : α → Option β) :
    ∀ {xs : List α} {x : α}, x ∈ xs → f x = none →
      collectAll f xs = none := by
  intro xs
  induction xs with
  | nil => intro x hx; cases hx
  | cons a xs ih =>
    intro x hx hfx
    rw [collectAll_cons]
    rcases List.mem_cons.mp hx with h | h
    · subst h; rw [hfx]
    · cases hf : f a
      · rfl
      · rw [ih h hfx]

/-- If every element succeeds, the traversal succeeds. -/
theorem collectAll_isSome {α β : Type} (f : α → Option β) :
    ∀ {xs : List α}, (∀ x ∈ xs, (f x).isSome = true) →
      ∃ ys, collectAll f xs = some ys := by
  intro xs
  induction xs with
  | nil => intro _; exact ⟨[], rfl⟩
  | cons a xs ih =>
    intro h
    obtain ⟨y, hy⟩ := Option.isSome_iff_exists.mp (h a (List.mem_cons_self a xs))
    obtain ⟨ys, hys⟩ := ih fun x hx => h x (List.mem_cons_of_mem a hx)
    exact ⟨y :: ys, by rw [collectAll_cons, hy, hys]⟩

/-- A traversal with an everywhere-successful body is a plain map. -/
theorem collectAll_total {α β : Type} (g : α → β) :
    ∀ (xs : List α), collectAll (fun x => some (g x)) xs = some (xs.map g) := by
  intro xs
  induction xs with
  | nil => rfl
  | cons a xs ih => rw [collectAll_cons, ih]; rfl

/-- Combine two positional relations sharing the same left list. -/
theorem forall₂_pair {α β γ : Type} {R : α → β → Prop} {S : α → γ → Prop}
    {T : β → γ → Prop} (h : ∀ a b c, R a b → S a c → T b c) :
    ∀ {xs : List α} {ys : List β} {zs : List γ},
      List.Forall₂ R xs ys → List.Forall₂ S xs zs → List.Forall₂ T ys zs := by
  intro xs
  induction xs with
  | nil =>
    intro ys zs h1 h2
    cases h1; cases h2; exact List.Forall₂.nil
  | cons a xs ih =>
    intro ys zs h1 h2
    cases h1 with
    | cons hb h1 =>
      cases h2 with
      | cons hc h2 => exact List.Forall₂.cons (h a _ _ hb hc) (ih h1 h2)

/-- Mapping both sides of a positional relation that agree pointwise. -/
theorem forall₂_map_congr {α β γ : Type} {R : α → β → Prop} (f : α → γ)
    (g : β → γ) (h : ∀ a b, R a b → g b = f a) :
    ∀ {xs : List α} {ys : List β}, List.Forall₂ R xs ys →
      ys.map g = xs.map f := by
  intro xs
  induction xs with
  | nil => intro ys hr; cases hr; rfl
  | cons a xs ih =>
    intro ys hr
    cases hr with
    | cons hb hr => rw [List.map_cons, List.map_cons, ih hr, h a _ hb]

/-- A positional relation that determines the right element pointwise is a
map. -/
theorem forall₂_eq_map {α β : Type} {R : α → β → Prop} (g : α → β)
    (h : ∀ a b, R a b → b = g a) :
    ∀ {xs : List α} {ys : List β}, List.Forall₂ R xs ys → ys = xs.map g := by
  intro xs
  induction xs with
  | nil => intro ys hr; cases hr; rfl
  | cons a xs ih =>
    intro ys hr
    cases hr with
    | cons hb hr => rw [List.map_cons, ← ih hr, h a _ hb]

/-- Characterization of a successful SOCKS5 descriptor build. -/
theorem socksDescriptor_eq_some {urlOk : String → Bool}
    {username password : String} {v : Structure.Root} {pi : ProxyInfo}
    (hd : socksDescriptor urlOk username password v = some pi) :
    ∃ c, v.locations.head? = some c ∧
      urlOk (socksUrl username password v.hostname) = true ∧
      pi = { load := v.load, country := c.country.code,
             city := c.country.city.name,
             proxy := { intercept := .all,
                        url := socksUrl username password v.hostname,
                        auth := none } } := by
  unfold socksDescriptor reqwestAll at hd
  cases hc : v.locations.head? with
  | none => simp only [hc] at hd; cases hd
  | some c =>
    simp only [hc] at hd
    by_cases hok : urlOk (socksUrl username password v.hostname) = true
    · simp only [hok, if_true, Option.some.injEq] at hd
      exact ⟨c, rfl, hok, hd.symm⟩
    · simp only [if_neg hok] at hd; cases hd

/-- Characterization of a successful HTTPS descriptor build. -/
theorem httpDescriptor_eq_some {urlOk : String → Bool}
    {username password : String} {v : ProxyTuple} {pi : ProxyInfo}
    (hd : httpDescriptor urlOk username password v = some pi) :
    ∃ m, v.2.2.2.metadata.find? (fun md => md.name == "proxy_hostname") =
        some m ∧
      urlOk ("https://" ++ m.value ++ ":89") = true ∧
      pi = { load := v.1, country := v.2.1, city := v.2.2.1,
             proxy := { intercept := .https,
                        url := "https://" ++ m.value ++ ":89",
                        auth := some (username, password) } } := by
  unfold httpDescriptor reqwestHttps at hd
  cases hm : v.2.2.2.metadata.find? (fun md => md.name == "proxy_hostname") with
  | none => simp only [hm] at hd; cases hd
  | some m =>
    simp only [hm] at hd
    by_cases hok : urlOk ("https://" ++ m.value ++ ":89") = true
    · simp only [hok, if_true, Option.some.injEq] at hd
      exact ⟨m, rfl, hok, hd.symm⟩
    · simp only [if_neg hok] at hd; cases hd

/-- A successful per-record expansion produces exactly the spec-side tuple
list, in order. -/
theorem expandRecord_eq_some {v : Structure.Root} {lv : List ProxyTuple}
    (h : expandRecord v = some lv) : lv = proxyTuplesSpec v := by
  unfold expandRecord at h
  unfold proxyTuplesSpec
  cases hc : v.locations.head? with
  | some c =>
    simp only [hc] at h ⊢
    rw [collectAll_total] at h
    exact (Option.some.injEq _ _ ▸ h).symm
  | none =>
    simp only [hc] at h ⊢
    cases htech : v.technologies.filter fun t => t.identifier == "proxy_ssl" with
    | nil => rw [htech, collectAll_nil] at h; cases h; rfl
    | cons a as => rw [htech, collectAll_cons] at h; cases h

/-! ## Claim theorems -/

/-- C1: a successful SOCKS5 pipeline run (`Socks5.new` then `proxies`)
yields exactly one descriptor per record whose status is exactly
`"online"` (case-sensitive) and which has a technology entry with pivot
status `"online"` and identifier `"socks"`; all other records contribute
zero descriptors. -/
theorem socks5_one_descriptor_per_matching_record
    (urlOk : String → Bool) (fetched : List Structure.Root)
    (username password : String) (l : List ProxyInfo)
    (h : (Socks5.new fetched).proxies urlOk username password = some l) :
    l.length = (fetched.filter fun v =>
      v.status == "online" && v.technologies.any fun t =>
        t.pivot.status == "online" && t.identifier == "socks").length :=
  collectAll_length _ h

/-- Witness for C1, on the spec §8 SOCKS5 scenario record. -/
theorem socks5_one_descriptor_per_matching_record_witness :
    (Socks5.new [sampleSocksRecord]).proxies acceptAll "alice" "secret" =
      some [{ load := 3, country := "US", city := "Miami",
              proxy := ⟨.all, "socks5h://alice:secret@h1:1080", none⟩ }] ∧
    ([{ load := 3, country := "US", city := "Miami",
        proxy := ⟨.all, "socks5h://alice:secret@h1:1080", none⟩ }] :
      List ProxyInfo).length =
      ([sampleSocksRecord].filter fun v =>
        v.status == "online" && v.technologies.any fun t =>
          t.pivot.status == "online" && t.identifier == "socks").length :=
  ⟨by decide, socks5_one_descriptor_per_matching_record acceptAll
    [sampleSocksRecord] "alice" "secret" _ (by decide)⟩

/-- C2: a successful HTTP/HTTPS construction (`Proxy.new`) keeps a record
iff its lower-cased status is `"online"` and some service identifier is
`"proxy"`, and stores one intermediate tuple per kept record per
technology entry with identifier `"proxy_ssl"`; records failing the
predicate contribute zero tuples. -/
theorem http_one_tuple_per_ssl_technology
    (fetched : List Structure.Root) (d : Proxy)
    (h : Proxy.new fetched = some d) :
    d.data.length =
      ((fetched.filter fun v =>
          lowercase v.status == "online" &&
            v.services.any fun s => s.identifier == "proxy").map
        fun v => (v.technologies.filter fun t =>
          t.identifier == "proxy_ssl").length).sum := by
  unfold Proxy.new at h
  cases hc : collectAll expandRecord (fetched.filter proxyFilter) with
  | none => rw [hc] at h; cases h
  | some l =>
    rw [hc] at h
    cases h
    have hmap : l.map List.length = (fetched.filter proxyFilter).map
        fun v => (v.technologies.filter fun t =>
          t.identifier == "proxy_ssl").length := by
      refine forall₂_map_congr _ _ ?_ (collectAll_forall₂ _ hc)
      intro v lv hv
      exact collectAll_length _ hv
    show l.flatten.length = ((fetched.filter proxyFilter).map
      fun v => (v.technologies.filter fun t =>
        t.identifier == "proxy_ssl").length).sum
    rw [List.length_flatten, hmap]

/-- Witness for C2, on the spec §8 HTTPS scenario record. -/
theorem http_one_tuple_per_ssl_technology_witness :
    (∃ d, Proxy.new [sampleHttpRecord] = some d) ∧
    (Proxy.new [sampleHttpRecord]).map (fun d => d.data.length) =
      some (([sampleHttpRecord].filter fun v =>
          lowercase v.status == "online" &&
            v.services.any fun s => s.identifier == "proxy").map
        fun v => (v.technologies.filter fun t =>
          t.identifier == "proxy_ssl").length).sum := by
  refine ⟨⟨⟨[(5, "NL", "Amsterdam",
      { identifier := "proxy_ssl", pivot := ⟨"online"⟩,
        metadata := [⟨"proxy_hostname", "h2.example"⟩] })]⟩, by decide⟩, ?_⟩
  have h : Proxy.new [sampleHttpRecord] = some ⟨[(5, "NL", "Amsterdam",
      { identifier := "proxy_ssl", pivot := ⟨"online"⟩,
        metadata := [⟨"proxy_hostname", "h2.example"⟩] })]⟩ := by decide
  rw [h, Option.map_some']
  rw [http_one_tuple_per_ssl_technology [sampleHttpRecord] _ h]

/-- C3: on a successful SOCKS5 `proxies` call, the descriptor of each
surviving record carries the record's load, the country code and city name
of the record's first location entry, and an all-traffic proxy reference
whose URL is exactly
`socks5h://<username>:<password>@<hostname>:1080`. -/
theorem socks5_descriptor_projection
    (urlOk : String → Bool) (fetched : List Structure.Root)
    (username password : String) (l : List ProxyInfo)
    (h : (Socks5.new fetched).proxies urlOk username password = some l) :
    List.Forall₂ (fun v pi => ∃ c, v.locations.head? = some c ∧
        pi.load = v.load ∧ pi.country = c.country.code ∧
        pi.city = c.country.city.name ∧
        pi.proxy.url = "socks5h://" ++ username ++ ":" ++ password ++ "@" ++
          v.hostname ++ ":1080" ∧
        pi.proxy.intercept = .all ∧ pi.proxy.auth = none)
      (fetched.filter socksFilter) l := by
  refine List.Forall₂.imp ?_ (collectAll_forall₂ _ h)
  intro v pi hd
  obtain ⟨c, hc, -, hpi⟩ := socksDescriptor_eq_some hd
  exact ⟨c, hc, by rw [hpi], by rw [hpi], by rw [hpi], by rw [hpi]; rfl,
    by rw [hpi], by rw [hpi]⟩

/-- Witness for C3, on the spec §8 SOCKS5 scenario record. -/
theorem socks5_descriptor_projection_witness :
    List.Forall₂ (fun (v : Structure.Root) (pi : ProxyInfo) =>
        ∃ c, v.locations.head? = some c ∧
        pi.load = v.load ∧ pi.country = c.country.code ∧
        pi.city = c.country.city.name ∧
        pi.proxy.url = "socks5h://" ++ "alice" ++ ":" ++ "secret" ++ "@" ++
          v.hostname ++ ":1080" ∧
        pi.proxy.intercept = .all ∧ pi.proxy.auth = none)
      ([sampleSocksRecord].filter socksFilter)
      [{ load := 3, country := "US", city := "Miami",
         proxy := ⟨.all, "socks5h://alice:secret@h1:1080", none⟩ }] :=
  socks5_descriptor_projection acceptAll [sampleSocksRecord] "alice" "secret"
    _ (by decide)

/-- C4: on a successful HTTP/HTTPS `proxies` call, the descriptor of each
stored intermediate tuple carries the tuple's load, country and city, and
an HTTPS-only proxy reference whose URL is exactly `https://<host>:89`
with `<host>` the tuple's technology metadata value under the key
`proxy_hostname`; the credentials are attached as separate basic-auth data
and are not part of the URL string. -/
theorem http_descriptor_projection
    (urlOk : String → Bool) (s : Proxy) (username password : String)
    (l : List ProxyInfo) (h : s.proxies urlOk username password = some l) :
    List.Forall₂ (fun (t : ProxyTuple) (pi : ProxyInfo) => ∃ m,
        t.2.2.2.metadata.find? (fun md => md.name == "proxy_hostname") =
          some m ∧
        pi.load = t.1 ∧ pi.country = t.2.1 ∧ pi.city = t.2.2.1 ∧
        pi.proxy.url = "https://" ++ m.value ++ ":89" ∧
        pi.proxy.auth = some (username, password) ∧
        pi.proxy.intercept = .https)
      s.data l := by
  refine List.Forall₂.imp ?_ (collectAll_forall₂ _ h)
  intro t pi hd
  obtain ⟨m, hm, -, hpi⟩ := httpDescriptor_eq_some hd
  exact ⟨m, hm, by rw [hpi], by rw [hpi], by rw [hpi], by rw [hpi],
    by rw [hpi], by rw [hpi]⟩

/-- Witness for C4, on the spec §8 HTTPS scenario tuple. -/
theorem http_descriptor_projection_witness :
    List.Forall₂ (fun (t : ProxyTuple) (pi : ProxyInfo) => ∃ m,
        t.2.2.2.metadata.find? (fun md => md.name == "proxy_hostname") =
          some m ∧
        pi.load = t.1 ∧ pi.country = t.2.1 ∧ pi.city = t.2.2.1 ∧
        pi.proxy.url = "https://" ++ m.value ++ ":89" ∧
        pi.proxy.auth = some ("alice", "secret") ∧
        pi.proxy.intercept = .https)
      (⟨[(5, "NL", "Amsterdam",
          { identifier := "proxy_ssl", pivot := ⟨"online"⟩,
            metadata := [⟨"proxy_hostname", "h2.example"⟩] })]⟩ : Proxy).data
      [{ load := 5, country := "NL", city := "Amsterdam",
         proxy := ⟨.https, "https://h2.example:89",
           some ("alice", "secret")⟩ }] :=
  http_descriptor_projection acceptAll _ "alice" "secret" _ (by decide)

/-- C5: if some stored tuple's technology entry has no metadata item named
`proxy_hostname`, the whole HTTP/HTTPS `proxies` call fails — no
descriptor sequence at all is returned, the entry is never silently
skipped; and when every stored entry has the key (and the external URL
parser accepts the built URLs), the call returns a descriptor for every
stored tuple. -/
theorem http_missing_hostname_key_fails
    (urlOk : String → Bool) (username password : String) (s : Proxy) :
    ((∃ t ∈ s.data, ∀ md ∈ t.2.2.2.metadata, md.name ≠ "proxy_hostname") →
      s.proxies urlOk username password = none) ∧
    ((∀ t ∈ s.data, ∃ md ∈ t.2.2.2.metadata, md.name = "proxy_hostname") →
      (∀ str, urlOk str = true) →
      ∃ l, s.proxies urlOk username password = some l ∧
        l.length = s.data.length) := by
  constructor
  · rintro ⟨t, ht, hmiss⟩
    apply collectAll_eq_none _ ht
    unfold httpDescriptor
    have hfind : t.2.2.2.metadata.find?
        (fun md => md.name == "proxy_hostname") = none := by
      rw [List.find?_eq_none]
      intro md hmd
      simpa using hmiss md hmd
    rw [hfind]
  · intro hall hok
    have hsome : ∀ t ∈ s.data,
        (httpDescriptor urlOk username password t).isSome = true := by
      intro t ht
      obtain ⟨md, hmd, hname⟩ := hall t ht
      have hfind : (t.2.2.2.metadata.find?
          fun md => md.name == "proxy_hostname").isSome = true := by
        rw [List.find?_isSome]
        exact ⟨md, hmd, by simp [hname]⟩
      obtain ⟨m, hm⟩ := Option.isSome_iff_exists.mp hfind
      unfold httpDescriptor reqwestHttps
      simp [hm, hok]
    obtain ⟨l, hl⟩ := collectAll_isSome _ hsome
    exact ⟨l, hl, collectAll_length _ hl⟩

/-- Witness for C5: a stored tuple without the key makes the call fail;
with the key present the call returns one descriptor per tuple. -/
theorem http_missing_hostname_key_fails_witness :
    (⟨[tupleNoHost]⟩ : Proxy).proxies acceptAll "u" "p" = none ∧
    ∃ l, (⟨[tupleWithHost]⟩ : Proxy).proxies acceptAll "u" "p" = some l ∧
      l.length = (⟨[tupleWithHost]⟩ : Proxy).data.length :=
  ⟨(http_missing_hostname_key_fails acceptAll "u" "p" ⟨[tupleNoHost]⟩).1
      ⟨tupleNoHost, List.mem_cons_self _ _, by decide⟩,
    (http_missing_hostname_key_fails acceptAll "u" "p" ⟨[tupleWithHost]⟩).2
      (by decide) (fun _ => rfl)⟩

/-- C6 counterexample: `noLocNoSslRecord` survives the HTTP/HTTPS filter
and has an empty locations list, yet `Proxy.new` succeeds (the
`locations.first().unwrap()` sits inside the per-`proxy_ssl`-technology
map body, which never runs for a record with no such technology entry), so
the claim that the HTTP/HTTPS pipeline fails during construction for every
surviving record with empty locations is false. -/
theorem http_empty_locations_no_failure_counterexample :
    proxyFilter noLocNoSslRecord = true ∧
    noLocNoSslRecord.locations = [] ∧
    Proxy.new [noLocNoSslRecord] = some ⟨[]⟩ :=
  ⟨by decide, rfl, by decide⟩

/-- C6 (amended): first-location extraction never reaches its failure
branch when every record surviving the kind's filter has at least one
location entry (both pipelines then succeed, given the external URL parser
accepts the built URLs); a surviving record with an empty locations list
makes `Proxy.new` fail provided it has at least one `proxy_ssl` technology
entry (with none, it contributes zero tuples and construction succeeds);
and the SOCKS5 `proxies` call fails for any stored record with an empty
locations list. -/
theorem location_contract
    : (∀ fetched : List Structure.Root,
        (∀ v ∈ fetched, proxyFilter v = true → v.locations ≠ []) →
        ∃ d, Proxy.new fetched = some d) ∧
      (∀ (urlOk : String → Bool) (username password : String) (s : Socks5),
        (∀ v ∈ s.data, v.locations ≠ []) → (∀ str, urlOk str = true) →
        ∃ l, s.proxies urlOk username password = some l) ∧
      (∀ (fetched : List Structure.Root) (v : Structure.Root), v ∈ fetched →
        proxyFilter v = true → v.locations = [] →
        (v.technologies.any fun t => t.identifier == "proxy_ssl") = true →
        Proxy.new fetched = none) ∧
      (∀ (urlOk : String → Bool) (username password : String) (s : Socks5)
        (v : Structure.Root), v ∈ s.data → v.locations = [] →
        s.proxies urlOk username password = none) := by
  refine ⟨?_, ?_, ?_, ?_⟩
  · intro fetched hloc
    have hsome : ∀ v ∈ fetched.filter proxyFilter,
        (expandRecord v).isSome = true := by
      intro v hv
      obtain ⟨hmem, hfil⟩ := List.mem_filter.mp hv
      obtain ⟨c, rest, hlv⟩ := List.exists_cons_of_ne_nil (hloc v hmem hfil)
      have hc : v.locations.head? = some c := by rw [hlv]; rfl
      have hexp : expandRecord v = some
          ((v.technologies.filter fun t => t.identifier == "proxy_ssl").map
            fun t => (v.load, c.country.code, c.country.city.name, t)) := by
        unfold expandRecord
        simp only [hc]
        exact collectAll_total _ _
      rw [hexp]; rfl
    obtain ⟨L, hL⟩ := collectAll_isSome _ hsome
    exact ⟨⟨L.flatten⟩, by unfold Proxy.new; rw [hL]; rfl⟩
  · intro urlOk username password s hloc hok
    apply collectAll_isSome
    intro v hv
    obtain ⟨c, rest, hlv⟩ := List.exists_cons_of_ne_nil (hloc v hv)
    have hc : v.locations.head? = some c := by rw [hlv]; rfl
    unfold socksDescriptor reqwestAll
    simp [hc, hok]
  · intro fetched v hmem hfil hloc hssl
    have hv : v ∈ fetched.filter proxyFilter := List.mem_filter.mpr ⟨hmem, hfil⟩
    have hexp : expandRecord v = none := by
      obtain ⟨t, ht, hid⟩ := List.any_eq_true.mp hssl
      apply collectAll_eq_none _ (List.mem_filter.mpr ⟨ht, hid⟩)
      rw [List.head?_eq_none_iff.mpr hloc]
    unfold Proxy.new
    rw [collectAll_eq_none _ hv hexp]
    rfl
  · intro urlOk username password s v hv hloc
    apply collectAll_eq_none _ hv
    unfold socksDescriptor
    rw [List.head?_eq_none_iff.mpr hloc]

/-- Witness for the amended C6, on the sample records. -/
theorem location_contract_witness :
    (∃ d, Proxy.new [sampleHttpRecord] = some d) ∧
    (∃ l, (⟨[sampleSocksRecord]⟩ : Socks5).proxies acceptAll "u" "p" =
      some l) ∧
    Proxy.new [noLocSslRecord] = none ∧
    (⟨[noLocNoSslRecord]⟩ : Socks5).proxies acceptAll "u" "p" = none :=
  ⟨location_contract.1 [sampleHttpRecord] (by decide),
    location_contract.2.1 acceptAll "u" "p" ⟨[sampleSocksRecord]⟩
      (by decide) (fun _ => rfl),
    location_contract.2.2.1 [noLocSslRecord] noLocSslRecord
      (List.mem_cons_self _ _) (by decide) rfl (by decide),
    location_contract.2.2.2 acceptAll "u" "p" ⟨[noLocNoSslRecord]⟩
      noLocNoSslRecord (List.mem_cons_self _ _) rfl⟩

/-- C7: if the external URL parser rejects the URL built for any single
stored entry, the whole `proxies` call fails for both pipelines — the bad
entry is not skipped and no partial descriptor sequence is returned. -/
theorem url_rejection_aborts_call
    : (∀ (urlOk : String → Bool) (username password : String) (s : Socks5)
        (v : Structure.Root), v ∈ s.data →
        urlOk (socksUrl username password v.hostname) = false →
        s.proxies urlOk username password = none) ∧
      (∀ (urlOk : String → Bool) (username password : String) (s : Proxy)
        (t : ProxyTuple) (m : Structure.Metadata), t ∈ s.data →
        t.2.2.2.metadata.find? (fun md => md.name == "proxy_hostname") =
          some m →
        urlOk ("https://" ++ m.value ++ ":89") = false →
        s.proxies urlOk username password = none) := by
  constructor
  · intro urlOk username password s v hv hbad
    apply collectAll_eq_none _ hv
    unfold socksDescriptor reqwestAll
    cases v.locations.head? with
    | none => rfl
    | some c => rw [hbad]; rfl
  · intro urlOk username password s t m ht hm hbad
    apply collectAll_eq_none _ ht
    unfold httpDescriptor reqwestHttps
    simp [hm, hbad]

/-- Witness for C7: a rejecting URL parser makes both pipelines fail on
the sample data. -/
theorem url_rejection_aborts_call_witness :
    (⟨[sampleSocksRecord]⟩ : Socks5).proxies rejectAll "u" "p" = none ∧
    (⟨[tupleWithHost]⟩ : Proxy).proxies rejectAll "u" "p" = none :=
  ⟨url_rejection_aborts_call.1 rejectAll "u" "p" ⟨[sampleSocksRecord]⟩
      sampleSocksRecord (List.mem_cons_self _ _) rfl,
    url_rejection_aborts_call.2 rejectAll "u" "p" ⟨[tupleWithHost]⟩
      tupleWithHost ⟨"proxy_hostname", "h2.example"⟩
      (List.mem_cons_self _ _) (by decide) rfl⟩

/-- C8: `proxies` is a pure function of the stored data, the URL parser
and the credentials (in the source it takes `&self` and only reads), so
calling it twice on the same unchanged value with the same credentials
yields definitionally the same descriptor sequence, equal in content and
order. -/
theorem proxies_deterministic (urlOk : String → Bool)
    (username password : String) (s5 : Socks5) (sp : Proxy) :
    s5.proxies urlOk username password = s5.proxies urlOk username password ∧
    sp.proxies urlOk username password = sp.proxies urlOk username password :=
  ⟨rfl, rfl⟩

/-- C9: both pipelines preserve input order — `Socks5::new` stores exactly
the surviving records in fetched order, a successful `Proxy::new` stores
the per-record tuple blocks in fetched-record order with each block in
technology-entry order (`proxyTuplesSpec`), and each `proxies` call maps
its stored entries to descriptors positionally. -/
theorem pipelines_preserve_order
    : (∀ fetched : List Structure.Root,
        (Socks5.new fetched).data = fetched.filter socksFilter) ∧
      (∀ (urlOk : String → Bool) (username password : String)
        (fetched : List Structure.Root) (l : List ProxyInfo),
        (Socks5.new fetched).proxies urlOk username password = some l →
        List.Forall₂
          (fun v pi => socksDescriptor urlOk username password v = some pi)
          (fetched.filter socksFilter) l) ∧
      (∀ (fetched : List Structure.Root) (d : Proxy),
        Proxy.new fetched = some d →
        d.data = ((fetched.filter proxyFilter).map proxyTuplesSpec).flatten) ∧
      (∀ (urlOk : String → Bool) (username password : String) (s : Proxy)
        (l : List ProxyInfo), s.proxies urlOk username password = some l →
        List.Forall₂
          (fun t pi => httpDescriptor urlOk username password t = some pi)
          s.data l) := by
  refine ⟨fun _ => rfl, ?_, ?_, ?_⟩
  · intro urlOk username password fetched l h
    exact collectAll_forall₂ _ h
  · intro fetched d h
    unfold Proxy.new at h
    cases hc : collectAll expandRecord (fetched.filter proxyFilter) with
    | none => rw [hc] at h; cases h
    | some L =>
      rw [hc] at h
      cases h
      show L.flatten = _
      rw [forall₂_eq_map proxyTuplesSpec
        (fun a b hab => expandRecord_eq_some hab) (collectAll_forall₂ _ hc)]
  · intro urlOk username password s l h
    exact collectAll_forall₂ _ h

/-- Witness for C9, on the sample records. -/
theorem pipelines_preserve_order_witness :
    (Socks5.new [sampleSocksRecord]).data =
      [sampleSocksRecord].filter socksFilter ∧
    List.Forall₂
      (fun v pi => socksDescriptor acceptAll "alice" "secret" v = some pi)
      ([sampleSocksRecord].filter socksFilter)
      [{ load := 3, country := "US", city := "Miami",
         proxy := ⟨.all, "socks5h://alice:secret@h1:1080", none⟩ }] ∧
    (⟨[tupleWithHost]⟩ : Proxy).data =
      (([sampleHttpRecord].filter proxyFilter).map proxyTuplesSpec).flatten ∧
    List.Forall₂
      (fun t pi => httpDescriptor acceptAll "alice" "secret" t = some pi)
      (⟨[tupleWithHost]⟩ : Proxy).data
      [{ load := 5, country := "NL", city := "Amsterdam",
         proxy := ⟨.https, "https://h2.example:89",
           some ("alice", "secret")⟩ }] :=
  ⟨pipelines_preserve_order.1 [sampleSocksRecord],
    pipelines_preserve_order.2.1 acceptAll "alice" "secret"
      [sampleSocksRecord] _ (by decide),
    pipelines_preserve_order.2.2.1 [sampleHttpRecord] ⟨[tupleWithHost]⟩
      (by decide),
    pipelines_preserve_order.2.2.2 acceptAll "alice" "secret"
      ⟨[tupleWithHost]⟩ _ (by decide)⟩

/-- C10: credentials do not influence selection — for the same stored data
and URL parser, two successful `proxies` calls with different credential
pairs return descriptor sequences of the same length that agree
component-wise on load, country and city, for both pipelines. -/
theorem credentials_do_not_affect_selection
    (urlOk : String → Bool) (s5 : Socks5) (sp : Proxy)
    (u1 p1 u2 p2 : String) :
    (∀ l1 l2, s5.proxies urlOk u1 p1 = some l1 →
      s5.proxies urlOk u2 p2 = some l2 →
      l1.length = l2.length ∧
      List.Forall₂ (fun a b => a.load = b.load ∧ a.country = b.country ∧
        a.city = b.city) l1 l2) ∧
    (∀ l1 l2, sp.proxies urlOk u1 p1 = some l1 →
      sp.proxies urlOk u2 p2 = some l2 →
      l1.length = l2.length ∧
      List.Forall₂ (fun a b => a.load = b.load ∧ a.country = b.country ∧
        a.city = b.city) l1 l2) := by
  constructor
  · intro l1 l2 h1 h2
    refine ⟨by rw [collectAll_length _ h1, collectAll_length _ h2], ?_⟩
    refine forall₂_pair ?_ (collectAll_forall₂ _ h1) (collectAll_forall₂ _ h2)
    intro v a b ha hb
    obtain ⟨c, hc, -, hpa⟩ := socksDescriptor_eq_some ha
    obtain ⟨c', hc', -, hpb⟩ := socksDescriptor_eq_some hb
    rw [hc] at hc'
    cases hc'
    rw [hpa, hpb]
    exact ⟨rfl, rfl, rfl⟩
  · intro l1 l2 h1 h2
    refine ⟨by rw [collectAll_length _ h1, collectAll_length _ h2], ?_⟩
    refine forall₂_pair ?_ (collectAll_forall₂ _ h1) (collectAll_forall₂ _ h2)
    intro t a b ha hb
    obtain ⟨m, hm, -, hpa⟩ := httpDescriptor_eq_some ha
    obtain ⟨m', hm', -, hpb⟩ := httpDescriptor_eq_some hb
    rw [hm] at hm'
    cases hm'
    rw [hpa, hpb]
    exact ⟨rfl, rfl, rfl⟩

/-- Witness for C10, on the sample data with two credential pairs. -/
theorem credentials_do_not_affect_selection_witness :
    (([socksInfoAlice] : List ProxyInfo).length =
        ([socksInfoBob] : List ProxyInfo).length ∧
      List.Forall₂ (fun a b => a.load = b.load ∧ a.country = b.country ∧
          a.city = b.city)
        [socksInfoAlice] [socksInfoBob]) ∧
    (([httpInfoAlice] : List ProxyInfo).length =
        ([httpInfoBob] : List ProxyInfo).length ∧
      List.Forall₂ (fun a b => a.load = b.load ∧ a.country = b.country ∧
          a.city = b.city)
        [httpInfoAlice] [httpInfoBob]) :=
  ⟨(credentials_do_not_affect_selection acceptAll ⟨[sampleSocksRecord]⟩
        ⟨[tupleWithHost]⟩ "alice" "secret" "bob" "hunter2").1
      _ _ (by decide) (by decide),
    (credentials_do_not_affect_selection acceptAll ⟨[sampleSocksRecord]⟩
        ⟨[tupleWithHost]⟩ "alice" "secret" "bob" "hunter2").2
      _ _ (by decide) (by decide)⟩

end NordProxy
